import Mathlib

/-!
# ClipboardAI.Core: the engine stub and its exported C boundary

A shallow embedding of `src/ClipboardAI.Core/src/AIProcessor.cpp` and
`src/ClipboardAI.Core/src/dllmain.cpp`.

* A `std::string` is the list of its bytes (`List Nat`, each below 256); its
  `size()` is the length of the list, and `c_str()` is the list followed by a
  zero byte.
* A wide string (`LPCWSTR`, `LPWSTR`) is the list of the 16-bit units stored at
  the pointer, terminator included; a wide-string argument is not null, and a
  null pointer result is `none`.
* A pointer to an `AIProcessor` is a natural number, `0` being `nullptr`.
* What the code writes to `std::cout` and `std::cerr` is returned as a list of
  `Write` records next to the returned value.

`FreeString` and `DllMain` are not modelled.
-/

set_option autoImplicit false

/-! ## Text helpers -/

/-- Bytes of an ASCII string literal of the source. -/
def ascii (s : String) : List Nat := s.toList.map Char.toNat

/-- The characters of the NUL-terminated string stored at the start of `mem`:
every element before the first zero. -/
def cstr (mem : List Nat) : List Nat := mem.takeWhile (fun u => u != 0)

/-! ## The two Win32 conversion calls

`dllmain.cpp` calls `WideCharToMultiByte` and `MultiByteToWideChar` with code
page `CP_UTF8`, flags `0` and source length `-1`.  The two calls are library
code outside the repository; they are modelled after their documented
behaviour for these arguments (Windows Vista and later, where the calls follow
the Unicode definition of UTF-8 and UTF-16): the source is read up to and
including its terminator, the returned count includes the terminator, an
illegal sequence is replaced by U+FFFD and the call succeeds, a destination
size of `0` asks for the required size only, and a destination that is too
small makes the call return `0`.

The documentation does not say how many U+FFFD one ill-formed UTF-8 sequence
yields; the reader below yields one per ill-formed sequence, and no theorem
below depends on that choice.  Counts are natural numbers: the texts are taken
to be short enough for the `int` results of the calls.
-/

namespace Win32

/-- A leading (high) surrogate unit. -/
def isHighSurrogate (u : Nat) : Bool := 0xD800 ≤ u && u < 0xDC00

/-- A trailing (low) surrogate unit. -/
def isLowSurrogate (u : Nat) : Bool := 0xDC00 ≤ u && u < 0xE000

/-- A UTF-8 continuation byte. -/
def isCont (b : Nat) : Bool := 0x80 ≤ b && b < 0xC0

/-- One step of the UTF-16 reader.  The state is the leading surrogate read
just before, if any; the result is the code points completed by the unit `u`
and the next state.  A surrogate that is not part of a pair becomes U+FFFD. -/
def utf16Step (pending : Option Nat) (u : Nat) : List Nat × Option Nat :=
  match pending with
  | none =>
    if isHighSurrogate u then ([], some u)
    else if isLowSurrogate u then ([0xFFFD], none)
    else ([u], none)
  | some h =>
    if isLowSurrogate u then ([0x10000 + (h - 0xD800) * 0x400 + (u - 0xDC00)], none)
    else if isHighSurrogate u then ([0xFFFD], some u)
    else ([0xFFFD, u], none)

/-- The UTF-16 reader from a given state; a leading surrogate still pending at
the end becomes U+FFFD. -/
def utf16Run : Option Nat → List Nat → List Nat
  | none, [] => []
  | some _, [] => [0xFFFD]
  | pending, u :: rest => (utf16Step pending u).1 ++ utf16Run (utf16Step pending u).2 rest

/-- UTF-16 units to code points; an unpaired surrogate becomes U+FFFD. -/
def utf16Decode (units : List Nat) : List Nat := utf16Run none units

/-- The UTF-16 units of one code point. -/
def utf16EncodeScalar (c : Nat) : List Nat :=
  if c < 0x10000 then [c]
  else [0xD800 + (c - 0x10000) / 0x400, 0xDC00 + (c - 0x10000) % 0x400]

/-- Code points to UTF-16 units. -/
def utf16Encode : List Nat → List Nat
  | [] => []
  | c :: cs => utf16EncodeScalar c ++ utf16Encode cs

/-- The UTF-8 bytes of one code point. -/
def utf8EncodeScalar (c : Nat) : List Nat :=
  if c < 0x80 then [c]
  else if c < 0x800 then [0xC0 + c / 0x40, 0x80 + c % 0x40]
  else if c < 0x10000 then [0xE0 + c / 0x1000, 0x80 + c / 0x40 % 0x40, 0x80 + c % 0x40]
  else [0xF0 + c / 0x40000, 0x80 + c / 0x1000 % 0x40, 0x80 + c / 0x40 % 0x40, 0x80 + c % 0x40]

/-- Code points to UTF-8 bytes. -/
def utf8Encode : List Nat → List Nat
  | [] => []
  | c :: cs => utf8EncodeScalar c ++ utf8Encode cs

/-- The state of the UTF-8 reader inside a multi-byte sequence: how many
continuation bytes are still due, the bits gathered so far, and the length of
the whole sequence.  `need = 0` is the state between sequences. -/
structure Utf8State where
  need : Nat
  acc : Nat
  len : Nat
  deriving DecidableEq, Repr

/-- The state between sequences. -/
def Utf8State.idle : Utf8State := { need := 0, acc := 0, len := 0 }

/-- The value `c` gathered from a sequence of `len` bytes is the shortest form
of a code point that is not a surrogate and not above U+10FFFF. -/
def utf8Valid (len c : Nat) : Bool :=
  if len = 2 then 0x80 ≤ c
  else if len = 3 then 0x800 ≤ c && !(0xD800 ≤ c && c < 0xE000)
  else 0x10000 ≤ c && c < 0x110000

/-- The reader at a byte that starts a sequence. -/
def utf8Lead (b : Nat) : List Nat × Utf8State :=
  if b < 0x80 then ([b], Utf8State.idle)
  else if b < 0xC0 then ([0xFFFD], Utf8State.idle)
  else if b < 0xE0 then ([], { need := 1, acc := b - 0xC0, len := 2 })
  else if b < 0xF0 then ([], { need := 2, acc := b - 0xE0, len := 3 })
  else if b < 0xF8 then ([], { need := 3, acc := b - 0xF0, len := 4 })
  else ([0xFFFD], Utf8State.idle)

/-- One step of the UTF-8 reader: the code points completed by the byte `b`
and the next state.  An ill-formed sequence (a stray continuation byte, a
sequence cut short, an overlong form, an encoded surrogate, a value above
U+10FFFF) becomes U+FFFD. -/
def utf8Step (st : Utf8State) (b : Nat) : List Nat × Utf8State :=
  if st.need = 0 then utf8Lead b
  else if isCont b then
    let c := st.acc * 0x40 + (b - 0x80)
    if st.need = 1 then
      ([if utf8Valid st.len c then c else 0xFFFD], Utf8State.idle)
    else ([], { need := st.need - 1, acc := c, len := st.len })
  else (0xFFFD :: (utf8Lead b).1, (utf8Lead b).2)

/-- The UTF-8 reader from a given state; a sequence cut short by the end of
the input becomes U+FFFD. -/
def utf8Run : Utf8State → List Nat → List Nat
  | st, [] => if st.need = 0 then [] else [0xFFFD]
  | st, b :: rest => (utf8Step st b).1 ++ utf8Run (utf8Step st b).2 rest

/-- UTF-8 bytes to code points; an ill-formed sequence becomes U+FFFD. -/
def utf8Decode (bytes : List Nat) : List Nat := utf8Run Utf8State.idle bytes

/-- A Unicode scalar value: at most U+10FFFF and not a surrogate. -/
def isScalar (c : Nat) : Bool := c < 0x110000 && !(0xD800 ≤ c && c < 0xE000)

/-- Well-formedness of a sequence of UTF-16 units read after a leading
surrogate (`pending = true`) or between characters (`pending = false`): every
unit fits 16 bits, every leading surrogate is followed at once by a trailing
one, and no trailing surrogate stands elsewhere. -/
def wellFormedUtf16From : Bool → List Nat → Bool
  | false, [] => true
  | true, [] => false
  | false, u :: rest =>
    u < 0x10000 &&
      (if isHighSurrogate u then wellFormedUtf16From true rest
       else !isLowSurrogate u && wellFormedUtf16From false rest)
  | true, u :: rest => isLowSurrogate u && wellFormedUtf16From false rest

/-- Well-formed UTF-16: 16-bit units with no unpaired surrogate. -/
def wellFormedUtf16 (units : List Nat) : Bool := wellFormedUtf16From false units

/-- The call `WideCharToMultiByte(CP_UTF8, 0, lpWideCharStr, -1, lpMultiByteStr,
cbMultiByte, nullptr, nullptr)`, with `lpMultiByteStr` the destination buffer
before the call (empty for `nullptr, 0`).  Returns the returned count and the
destination buffer after the call. -/
def WideCharToMultiByte (lpWideCharStr : List Nat) (lpMultiByteStr : List Nat) :
    Nat × List Nat :=
  let converted := utf8Encode (utf16Decode (cstr lpWideCharStr)) ++ [0]
  if lpMultiByteStr.length = 0 then (converted.length, lpMultiByteStr)
  else if converted.length ≤ lpMultiByteStr.length then
    (converted.length, converted ++ lpMultiByteStr.drop converted.length)
  else (0, lpMultiByteStr)

/-- The call `MultiByteToWideChar(CP_UTF8, 0, lpMultiByteStr, -1, lpWideCharStr,
cchWideChar)`, with `lpWideCharStr` the destination buffer before the call
(empty for `nullptr, 0`).  Returns the returned count and the destination
buffer after the call. -/
def MultiByteToWideChar (lpMultiByteStr : List Nat) (lpWideCharStr : List Nat) :
    Nat × List Nat :=
  let converted := utf16Encode (utf8Decode (cstr lpMultiByteStr)) ++ [0]
  if lpWideCharStr.length = 0 then (converted.length, lpWideCharStr)
  else if converted.length ≤ lpWideCharStr.length then
    (converted.length, converted ++ lpWideCharStr.drop converted.length)
  else (0, lpWideCharStr)

end Win32

/-! ## AIProcessor.cpp -/

/-- One completed output statement (a chain of insertions closed by
`std::endl`) on a standard stream, as the bytes written. -/
inductive Write where
  | cout (bytes : List Nat)
  | cerr (bytes : List Nat)
  deriving DecidableEq, Repr

namespace ClipboardAI.Core

/-- The private class `AIProcessor::Impl`: its only data member. -/
structure AIProcessor.Impl where
  m_initialized : Bool
  deriving DecidableEq, Repr

/-- The class `AIProcessor`: it owns its `Impl`. -/
structure AIProcessor where
  m_pImpl : AIProcessor.Impl
  deriving DecidableEq, Repr

/-- What a member call leaves behind: the returned value, the object after the
call and what was written to the standard streams. -/
structure Call (α β : Type) where
  ret : α
  self : β
  out : List Write
  deriving DecidableEq, Repr

namespace AIProcessor

/-- The constructor `Impl() : m_initialized(false) {}`. -/
def Impl.new : Impl := { m_initialized := false }

/-- The member `bool Impl::Initialize(const std::string& modelPath)`. -/
def Impl.Initialize (self : Impl) (modelPath : List Nat) : Call Bool Impl :=
  let out := [Write.cout
    (ascii "Initializing AI Processor with models from: " ++ modelPath ++ ascii "\n")]
  let self := { self with m_initialized := true }
  { ret := self.m_initialized, self := self, out := out }

/-- The member `std::string Impl::ProcessText(const std::string& text)`. -/
def Impl.ProcessText (self : Impl) (text : List Nat) : Call (List Nat) Impl :=
  if !self.m_initialized then
    { ret := text, self := self,
      out := [Write.cerr (ascii "AI Processor not initialized!" ++ ascii "\n")] }
  else
    { ret := ascii "Processed: " ++ text, self := self, out := [] }

/-- The member `std::string Impl::PerformOCR(const unsigned char* imageData,
int width, int height, int channels)`; `imageData` is the buffer the pointer
refers to. -/
def Impl.PerformOCR (self : Impl) (_imageData : List Nat)
    (_width _height _channels : Int) : Call (List Nat) Impl :=
  if !self.m_initialized then
    { ret := ascii "", self := self,
      out := [Write.cerr (ascii "AI Processor not initialized!" ++ ascii "\n")] }
  else
    { ret := ascii "OCR Result: Sample Text", self := self, out := [] }

/-- The constructor `AIProcessor() : m_pImpl(std::make_unique<Impl>())`. -/
def new : AIProcessor := { m_pImpl := Impl.new }

/-- The member `AIProcessor::Initialize`: forwards to the `Impl`. -/
def Initialize (self : AIProcessor) (modelPath : List Nat) : Call Bool AIProcessor :=
  let r := self.m_pImpl.Initialize modelPath
  { ret := r.ret, self := { m_pImpl := r.self }, out := r.out }

/-- The member `AIProcessor::ProcessText`: forwards to the `Impl`. -/
def ProcessText (self : AIProcessor) (text : List Nat) : Call (List Nat) AIProcessor :=
  let r := self.m_pImpl.ProcessText text
  { ret := r.ret, self := { m_pImpl := r.self }, out := r.out }

/-- The member `AIProcessor::PerformOCR`: forwards to the `Impl`. -/
def PerformOCR (self : AIProcessor) (imageData : List Nat)
    (width height channels : Int) : Call (List Nat) AIProcessor :=
  let r := self.m_pImpl.PerformOCR imageData width height channels
  { ret := r.ret, self := { m_pImpl := r.self }, out := r.out }

end AIProcessor

end ClipboardAI.Core

/-! ## dllmain.cpp -/

open ClipboardAI.Core

/-- The file-level state of `dllmain.cpp`: the static pointer `g_pProcessor`
together with the object it points to.  `none` is `nullptr`; `some (a, obj)` is
the address `a` of the one live `AIProcessor`, whose content is `obj`. -/
structure Global where
  g_pProcessor : Option (Nat × AIProcessor)
  deriving DecidableEq, Repr

/-- The value of the pointer `g_pProcessor`. -/
def Global.ptr (g : Global) : Nat :=
  match g.g_pProcessor with
  | none => 0
  | some (a, _) => a

/-- The object a non-null `processor` argument refers to after the
`static_cast`: the live instance when `processor` is its address; no other
address holds an `AIProcessor`, and using one is undefined (`none`). -/
def Global.deref (g : Global) (processor : Nat) : Option AIProcessor :=
  match g.g_pProcessor with
  | none => none
  | some (a, obj) => if a = processor then some obj else none

/-- What an exported call leaves behind: the returned value, the file-level
state after the call and what was written to the standard streams. -/
structure Result (α : Type) where
  ret : α
  global : Global
  out : List Write
  deriving DecidableEq, Repr

/-- The helper `LPWSTR ConvertToLPWSTR(const std::string& str)`: size query,
`new WCHAR[size]`, fill.  The result is the content of the new array. -/
def ConvertToLPWSTR (str : List Nat) : List Nat :=
  let size := (Win32.MultiByteToWideChar (str ++ [0]) []).1
  let result := List.replicate size 0
  (Win32.MultiByteToWideChar (str ++ [0]) result).2

/-- The three statements under `// Convert wide string to UTF-8` in
`InitializeAIProcessor` and in `ProcessText`: size query, a `std::string` of
`size` zero bytes, fill through `&str[0]`. -/
def ConvertToUtf8 (text : List Nat) : List Nat :=
  let size := (Win32.WideCharToMultiByte text []).1
  let textStr := List.replicate size 0
  (Win32.WideCharToMultiByte text textStr).2

/-- The export `void* CreateAIProcessor()`; `fresh` is the address the
expression `new AIProcessor()` yields when it is evaluated (the allocation is
taken to succeed). -/
def CreateAIProcessor (g : Global) (fresh : Nat) : Result Nat :=
  let g := if g.ptr = 0 then { g with g_pProcessor := some (fresh, AIProcessor.new) } else g
  { ret := g.ptr, global := g, out := [] }

/-- The export `bool InitializeAIProcessor(void* processor, LPCWSTR modelPath)`. -/
def InitializeAIProcessor (g : Global) (processor : Nat) (modelPath : List Nat) :
    Option (Result Bool) :=
  if processor = 0 then some { ret := false, global := g, out := [] }
  else
    let modelPathStr := ConvertToUtf8 modelPath
    match g.deref processor with
    | none => none
    | some pProcessor =>
      let r := pProcessor.Initialize modelPathStr
      some { ret := r.ret, global := { g_pProcessor := some (processor, r.self) }, out := r.out }

/-- The export `LPWSTR ProcessText(void* processor, LPCWSTR text)`. -/
def ProcessText (g : Global) (processor : Nat) (text : List Nat) :
    Option (Result (Option (List Nat))) :=
  if processor = 0 then some { ret := none, global := g, out := [] }
  else
    let textStr := ConvertToUtf8 text
    match g.deref processor with
    | none => none
    | some pProcessor =>
      let r := pProcessor.ProcessText textStr
      some { ret := some (ConvertToLPWSTR r.ret),
             global := { g_pProcessor := some (processor, r.self) }, out := r.out }

/-- The export `LPWSTR PerformOCR(void* processor, unsigned char* imageData,
int width, int height, int channels)`. -/
def PerformOCR (g : Global) (processor : Nat) (imageData : List Nat)
    (width height channels : Int) : Option (Result (Option (List Nat))) :=
  if processor = 0 then some { ret := none, global := g, out := [] }
  else
    match g.deref processor with
    | none => none
    | some pProcessor =>
      let r := pProcessor.PerformOCR imageData width height channels
      some { ret := some (ConvertToLPWSTR r.ret),
             global := { g_pProcessor := some (processor, r.self) }, out := r.out }

/-- The export `void DestroyAIProcessor(void* processor)`. -/
def DestroyAIProcessor (g : Global) (processor : Nat) : Result Unit :=
  if processor ≠ 0 ∧ processor = g.ptr then
    { ret := (), global := { g with g_pProcessor := none }, out := [] }
  else
    { ret := (), global := g, out := [] }

/-- The argument `h` is a non-null pointer to the live instance. -/
def Global.Live (g : Global) (h : Nat) : Prop :=
  h ≠ 0 ∧ (g.deref h).isSome = true

instance (g : Global) (h : Nat) : Decidable (g.Live h) := by
  unfold Global.Live
  infer_instance

/-- No object lives at the null address: the pointer kept in the state is
null exactly when no object is kept.  Every state the exports reach from the
initial `nullptr` is of this kind. -/
def Global.WellFormed (g : Global) : Prop :=
  g.deref 0 = none

instance (g : Global) : Decidable g.WellFormed := by
  unfold Global.WellFormed
  infer_instance

/-! ## The claims as worded, where a counterexample needs them spelled out -/

/-- Claim C7 as worded, for a bundle whose backend load has the outcome
`loaded`.  No code under `src/` performs or reports that load, so the outcome
is a parameter. -/
def InitializeOnlyOnSuccess (loaded : Bool) (self : AIProcessor.Impl)
    (modelPath : List Nat) : Prop :=
  ((self.Initialize modelPath).self.m_initialized = true →
      (self.Initialize modelPath).ret = true ∨ self.m_initialized = true) ∧
  (self.Initialize modelPath).ret = loaded ∧
  ((self.Initialize modelPath).ret = false → (self.Initialize modelPath).self = self)

instance (loaded : Bool) (self : AIProcessor.Impl) (modelPath : List Nat) :
    Decidable (InitializeOnlyOnSuccess loaded self modelPath) := by
  unfold InitializeOnlyOnSuccess
  infer_instance

/-! ## The engine: `AIProcessor::Impl` -/

/-- C1, counterexample: on an engine that was constructed and never
initialized, `ProcessText` returns the input echoed back and `PerformOCR`
returns the empty string; both are produced strings, not a failure. -/
theorem C1_uninitialized_returns_strings :
    (AIProcessor.Impl.new.ProcessText (ascii "hi")).ret = ascii "hi" ∧
    (AIProcessor.Impl.new.PerformOCR [1, 2, 3] 1 1 3).ret = [] := by
  decide

/-- C1, amended: for every engine whose `m_initialized` flag is false and every
input, `ProcessText` returns the input text unchanged and `PerformOCR` returns
the empty string; each leaves the engine as it was and writes the line
"AI Processor not initialized!" to `std::cerr`. -/
theorem C1_uninitialized_echo (self : AIProcessor.Impl) (h : self.m_initialized = false)
    (text imageData : List Nat) (width height channels : Int) :
    self.ProcessText text
      = { ret := text, self := self,
          out := [Write.cerr (ascii "AI Processor not initialized!" ++ ascii "\n")] } ∧
    self.PerformOCR imageData width height channels
      = { ret := [], self := self,
          out := [Write.cerr (ascii "AI Processor not initialized!" ++ ascii "\n")] } := by
  constructor
  · simp [AIProcessor.Impl.ProcessText, h]
  · simp [AIProcessor.Impl.PerformOCR, h, ascii]

/-- C1, amended, at the freshly constructed engine and a three-pixel image. -/
theorem C1_uninitialized_echo_witness :
    AIProcessor.Impl.new.ProcessText [0x68, 0x69]
      = { ret := [0x68, 0x69], self := AIProcessor.Impl.new,
          out := [Write.cerr (ascii "AI Processor not initialized!" ++ ascii "\n")] } ∧
    AIProcessor.Impl.new.PerformOCR [1, 2, 3] 1 1 3
      = { ret := [], self := AIProcessor.Impl.new,
          out := [Write.cerr (ascii "AI Processor not initialized!" ++ ascii "\n")] } :=
  C1_uninitialized_echo AIProcessor.Impl.new rfl [0x68, 0x69] [1, 2, 3] 1 1 3

/-- C5, counterexample: an initialized engine given an empty pixel buffer,
width 0, height -1 and 2 channels returns the text "OCR Result: Sample Text";
so does one given 5 bytes for a 2 by 2 image of 3 channels. -/
theorem C5_invalid_arguments_accepted :
    ((AIProcessor.Impl.mk true).PerformOCR [] 0 (-1) 2).ret = ascii "OCR Result: Sample Text" ∧
    ((AIProcessor.Impl.mk true).PerformOCR [1, 2, 3, 4, 5] 2 2 3).ret
      = ascii "OCR Result: Sample Text" := by
  decide

/-- C5, amended: for every initialized engine and every call of `PerformOCR`,
whatever the pixel buffer, width, height and channels, the result is the fixed
text "OCR Result: Sample Text"; the engine is left as it was and nothing is
written.  No argument is inspected. -/
theorem C5_initialized_ocr_fixed_text (self : AIProcessor.Impl) (h : self.m_initialized = true)
    (imageData : List Nat) (width height channels : Int) :
    self.PerformOCR imageData width height channels
      = { ret := ascii "OCR Result: Sample Text", self := self, out := [] } := by
  simp [AIProcessor.Impl.PerformOCR, h]

/-- C5, amended, at an initialized engine and arguments that fit no image. -/
theorem C5_initialized_ocr_fixed_text_witness :
    (AIProcessor.Impl.mk true).PerformOCR [] 0 (-1) 2
      = { ret := ascii "OCR Result: Sample Text", self := AIProcessor.Impl.mk true, out := [] } :=
  C5_initialized_ocr_fixed_text (AIProcessor.Impl.mk true) rfl [] 0 (-1) 2

/-- C6, counterexample: an initialized engine (the code loads no capability
at all) given the text "abc" returns "Processed: abc", which is not "abc". -/
theorem C6_initialized_adds_tag :
    ((AIProcessor.Impl.mk true).ProcessText (ascii "abc")).ret = ascii "Processed: abc" ∧
    ((AIProcessor.Impl.mk true).ProcessText (ascii "abc")).ret ≠ ascii "abc" := by
  decide

/-- C6, amended: for every initialized engine and every text `t`,
`ProcessText(t)` returns "Processed: " followed by `t`, which is never `t`
itself; the engine is left as it was and nothing is written. -/
theorem C6_initialized_process_text (self : AIProcessor.Impl) (h : self.m_initialized = true)
    (text : List Nat) :
    self.ProcessText text = { ret := ascii "Processed: " ++ text, self := self, out := [] } ∧
    (self.ProcessText text).ret ≠ text := by
  have e : self.ProcessText text
      = { ret := ascii "Processed: " ++ text, self := self, out := [] } := by
    simp [AIProcessor.Impl.ProcessText, h]
  refine ⟨e, ?_⟩
  rw [e]
  intro hEq
  have hlen := congrArg List.length hEq
  simp [ascii] at hlen
  omega

/-- C6, amended, at an initialized engine and the text "abc". -/
theorem C6_initialized_process_text_witness :
    (AIProcessor.Impl.mk true).ProcessText [0x61, 0x62, 0x63]
      = { ret := ascii "Processed: " ++ [0x61, 0x62, 0x63], self := AIProcessor.Impl.mk true,
          out := [] } ∧
    ((AIProcessor.Impl.mk true).ProcessText [0x61, 0x62, 0x63]).ret ≠ [0x61, 0x62, 0x63] :=
  C6_initialized_process_text (AIProcessor.Impl.mk true) rfl [0x61, 0x62, 0x63]

/-- C7, counterexample: for a bundle whose backend load fails, `Initialize` on
a fresh engine still returns true and sets the flag, so the returned value is
not the outcome of the load. -/
theorem C7_initialize_ignores_load :
    ¬ InitializeOnlyOnSuccess false AIProcessor.Impl.new (ascii "no/such/bundle") ∧
    (AIProcessor.Impl.new.Initialize (ascii "no/such/bundle")).ret = true ∧
    (AIProcessor.Impl.new.Initialize (ascii "no/such/bundle")).self.m_initialized = true := by
  refine ⟨?_, rfl, rfl⟩
  intro h
  exact absurd h.2.1 (by decide)

/-- C7, amended: for every engine state and every bundle path, `Initialize`
sets the flag to true and returns true; the returned value is the flag after
the call, and the only other effect is one line on `std::cout` naming the
path.  No backend load is attempted and no call returns false. -/
theorem C7_initialize_always_succeeds (self : AIProcessor.Impl) (modelPath : List Nat) :
    (self.Initialize modelPath).ret = true ∧
    (self.Initialize modelPath).self.m_initialized = true ∧
    (self.Initialize modelPath).ret = (self.Initialize modelPath).self.m_initialized ∧
    (self.Initialize modelPath).out
      = [Write.cout (ascii "Initializing AI Processor with models from: " ++ modelPath
          ++ ascii "\n")] := by
  simp [AIProcessor.Impl.Initialize]

/-! ## The exports of `dllmain.cpp`: handles and the file-level state -/

/-- A handle is live when it is a non-null address and the kept object is at
that address. -/
theorem Global.live_iff (g : Global) (h : Nat) :
    g.Live h ↔ h ≠ 0 ∧ ∃ obj, g.g_pProcessor = some (h, obj) := by
  obtain ⟨gp⟩ := g
  cases gp with
  | none => simp [Global.Live, Global.deref]
  | some p =>
    obtain ⟨a, obj⟩ := p
    by_cases ha : a = h
    · simp [Global.Live, Global.deref, ha]
    · simp [Global.Live, Global.deref, ha]

/-- A state is well-formed when the address of the kept object, if any, is
not null. -/
theorem Global.wellFormed_iff (g : Global) :
    g.WellFormed ↔ ∀ a obj, g.g_pProcessor = some (a, obj) → a ≠ 0 := by
  obtain ⟨gp⟩ := g
  cases gp with
  | none => simp [Global.WellFormed, Global.deref]
  | some p =>
    obtain ⟨a, obj⟩ := p
    by_cases ha : a = 0
    · simp [Global.WellFormed, Global.deref, ha]
    · simp [Global.WellFormed, Global.deref, ha]

/-- Every state the exports produce from a well-formed state is well-formed:
`CreateAIProcessor` stores only the address that `new` returned. -/
theorem CreateAIProcessor_wellFormed (g : Global) (hg : g.WellFormed) (fresh : Nat)
    (hf : fresh ≠ 0) : (CreateAIProcessor g fresh).global.WellFormed := by
  rw [Global.wellFormed_iff] at hg ⊢
  unfold CreateAIProcessor
  by_cases hp : g.ptr = 0
  · intro a obj hao
    simp [hp] at hao
    omega
  · simpa [hp] using hg

/-- `DestroyAIProcessor` keeps the state well-formed. -/
theorem DestroyAIProcessor_wellFormed (g : Global) (hg : g.WellFormed) (processor : Nat) :
    (DestroyAIProcessor g processor).global.WellFormed := by
  rw [Global.wellFormed_iff] at hg ⊢
  unfold DestroyAIProcessor
  split
  · intro a obj hao
    simp at hao
  · exact hg

/-- `InitializeAIProcessor`, when defined, keeps the state well-formed. -/
theorem InitializeAIProcessor_wellFormed (g : Global) (hg : g.WellFormed) (processor : Nat)
    (modelPath : List Nat) (r : Result Bool)
    (hr : InitializeAIProcessor g processor modelPath = some r) : r.global.WellFormed := by
  rw [Global.wellFormed_iff] at hg ⊢
  unfold InitializeAIProcessor at hr
  split at hr
  · simp at hr
    rw [← hr]
    exact hg
  · split at hr
    · simp at hr
    · simp at hr
      rw [← hr]
      intro a obj hao
      simp at hao
      omega

/-- The pointer of a well-formed state is null only when no object is kept. -/
theorem Global.ptr_eq_zero_iff (g : Global) (hg : g.WellFormed) :
    g.ptr = 0 ↔ g.g_pProcessor = none := by
  rw [Global.wellFormed_iff] at hg
  unfold Global.ptr
  cases hgp : g.g_pProcessor with
  | none => simp
  | some p =>
    obtain ⟨a, obj⟩ := p
    have := hg a obj hgp
    simp [this]

/-- The handle `CreateAIProcessor` returns is the live instance of the state
it leaves, provided `new` did not return null. -/
theorem CreateAIProcessor_live (g : Global) (hg : g.WellFormed) (fresh : Nat)
    (hf : fresh ≠ 0) :
    (CreateAIProcessor g fresh).global.Live (CreateAIProcessor g fresh).ret := by
  rw [Global.wellFormed_iff] at hg
  rw [Global.live_iff]
  obtain ⟨gp⟩ := g
  cases gp with
  | none =>
    exact ⟨by simpa [CreateAIProcessor, Global.ptr] using hf,
        ⟨AIProcessor.new, by simp [CreateAIProcessor, Global.ptr]⟩⟩
  | some p =>
    obtain ⟨a, obj⟩ := p
    have ha : a ≠ 0 := hg a obj rfl
    exact ⟨by simp [CreateAIProcessor, Global.ptr, ha],
        ⟨obj, by simp [CreateAIProcessor, Global.ptr, ha]⟩⟩

/-- C3, counterexample: two `CreateAIProcessor` calls with no
`DestroyAIProcessor` in between return the same handle, and the second call
leaves the state, hence the one engine, as the first call made it. -/
theorem C3_second_create_same_handle :
    (CreateAIProcessor (CreateAIProcessor ⟨none⟩ 1000).global 2000).ret
      = (CreateAIProcessor ⟨none⟩ 1000).ret ∧
    (CreateAIProcessor (CreateAIProcessor ⟨none⟩ 1000).global 2000).global
      = (CreateAIProcessor ⟨none⟩ 1000).global := by
  decide

/-- C3, amended: `CreateAIProcessor` returns the handle of the one global
engine.  The returned handle is non-null and is the live instance of the
state after the call.  When an instance is already live the call returns its
handle again and changes nothing; only when none is live does it construct a
new, uninitialized engine at the address the allocator supplies.  A second
call with no `DestroyAIProcessor` in between returns the same handle and the
same state, whatever the allocator would have supplied. -/
theorem C3_create_returns_singleton (g : Global) (hg : g.WellFormed) (fresh : Nat)
    (hf : fresh ≠ 0) :
    (CreateAIProcessor g fresh).global.Live (CreateAIProcessor g fresh).ret ∧
    (∀ a obj, g.g_pProcessor = some (a, obj) →
      CreateAIProcessor g fresh = { ret := a, global := g, out := [] }) ∧
    (g.g_pProcessor = none →
      CreateAIProcessor g fresh
        = { ret := fresh, global := { g_pProcessor := some (fresh, AIProcessor.new) },
            out := [] }) ∧
    (∀ fresh2, CreateAIProcessor (CreateAIProcessor g fresh).global fresh2
      = CreateAIProcessor g fresh) := by
  refine ⟨CreateAIProcessor_live g hg fresh hf, ?_⟩
  rw [Global.wellFormed_iff] at hg
  obtain ⟨gp⟩ := g
  cases gp with
  | none =>
    refine ⟨?_, ?_, ?_⟩
    · intro a obj hao
      simp at hao
    · intro _
      simp [CreateAIProcessor, Global.ptr]
    · intro fresh2
      simp [CreateAIProcessor, Global.ptr, hf]
  | some p =>
    obtain ⟨a, obj⟩ := p
    have ha : a ≠ 0 := hg a obj rfl
    refine ⟨?_, ?_, ?_⟩
    · intro a2 obj2 hao
      simp at hao
      obtain ⟨rfl, rfl⟩ := hao
      simp [CreateAIProcessor, Global.ptr, ha]
    · intro hnone
      simp at hnone
    · intro fresh2
      simp [CreateAIProcessor, Global.ptr, ha]

/-- C3, amended, at the initial state and the address 1000. -/
theorem C3_create_returns_singleton_witness :
    (CreateAIProcessor ⟨none⟩ 1000).global.Live (CreateAIProcessor ⟨none⟩ 1000).ret ∧
    (∀ a obj, (⟨none⟩ : Global).g_pProcessor = some (a, obj) →
      CreateAIProcessor ⟨none⟩ 1000 = { ret := a, global := ⟨none⟩, out := [] }) ∧
    ((⟨none⟩ : Global).g_pProcessor = none →
      CreateAIProcessor ⟨none⟩ 1000
        = { ret := 1000, global := { g_pProcessor := some (1000, AIProcessor.new) },
            out := [] }) ∧
    (∀ fresh2, CreateAIProcessor (CreateAIProcessor ⟨none⟩ 1000).global fresh2
      = CreateAIProcessor ⟨none⟩ 1000) :=
  C3_create_returns_singleton ⟨none⟩ (by decide) 1000 (by decide)

/-- C9: for the null handle and every other argument,
`InitializeAIProcessor` returns false, `ProcessText` and `PerformOCR` return a
null buffer and `DestroyAIProcessor` returns; each leaves the file-level state
exactly as it was and writes nothing. -/
theorem C9_null_handle (g : Global) (modelPath text imageData : List Nat)
    (width height channels : Int) :
    InitializeAIProcessor g 0 modelPath = some { ret := false, global := g, out := [] } ∧
    ProcessText g 0 text = some { ret := none, global := g, out := [] } ∧
    PerformOCR g 0 imageData width height channels
      = some { ret := none, global := g, out := [] } ∧
    DestroyAIProcessor g 0 = { ret := (), global := g, out := [] } := by
  simp [InitializeAIProcessor, ProcessText, PerformOCR, DestroyAIProcessor]

open Win32

/-- The UTF-8 reader consumes its input one byte at a time. -/
theorem utf8Run_cons (st : Utf8State) (b : Nat) (rest : List Nat) :
    utf8Run st (b :: rest) = (utf8Step st b).1 ++ utf8Run (utf8Step st b).2 rest := by
  cases st; rfl

/-- Between sequences the reader treats the byte as a sequence start. -/
theorem utf8Step_idle (b : Nat) : utf8Step Utf8State.idle b = utf8Lead b := by
  simp [utf8Step, Utf8State.idle]

/-- An ASCII byte is a whole sequence. -/
theorem utf8Lead_one (b : Nat) (h : b < 0x80) : utf8Lead b = ([b], Utf8State.idle) := by
  simp [utf8Lead, h]

/-- A byte in `0xC0..0xDF` opens a two-byte sequence. -/
theorem utf8Lead_two (b : Nat) (h1 : 0xC0 ≤ b) (h2 : b < 0xE0) :
    utf8Lead b = ([], { need := 1, acc := b - 0xC0, len := 2 }) := by
  have a1 : ¬ b < 0x80 := by omega
  have a2 : ¬ b < 0xC0 := by omega
  simp [utf8Lead, a1, a2, h2]

/-- A byte in `0xE0..0xEF` opens a three-byte sequence. -/
theorem utf8Lead_three (b : Nat) (h1 : 0xE0 ≤ b) (h2 : b < 0xF0) :
    utf8Lead b = ([], { need := 2, acc := b - 0xE0, len := 3 }) := by
  have a1 : ¬ b < 0x80 := by omega
  have a2 : ¬ b < 0xC0 := by omega
  have a3 : ¬ b < 0xE0 := by omega
  simp [utf8Lead, a1, a2, a3, h2]

/-- A byte in `0xF0..0xF7` opens a four-byte sequence. -/
theorem utf8Lead_four (b : Nat) (h1 : 0xF0 ≤ b) (h2 : b < 0xF8) :
    utf8Lead b = ([], { need := 3, acc := b - 0xF0, len := 4 }) := by
  have a1 : ¬ b < 0x80 := by omega
  have a2 : ¬ b < 0xC0 := by omega
  have a3 : ¬ b < 0xE0 := by omega
  have a4 : ¬ b < 0xF0 := by omega
  simp [utf8Lead, a1, a2, a3, a4, h2]

/-- The last continuation byte of a valid sequence completes its code point. -/
theorem utf8Step_last (acc len b c : Nat) (h1 : 0x80 ≤ b) (h2 : b < 0xC0)
    (hc : acc * 0x40 + (b - 0x80) = c) (hv : utf8Valid len c = true) :
    utf8Step { need := 1, acc := acc, len := len } b = ([c], Utf8State.idle) := by
  simp [utf8Step, isCont, h1, h2, hc, hv]

/-- A continuation byte that is not the last one adds its six bits. -/
theorem utf8Step_more (n acc len b : Nat) (h1 : 0x80 ≤ b) (h2 : b < 0xC0) :
    utf8Step { need := n + 2, acc := acc, len := len } b
      = ([], { need := n + 1, acc := acc * 0x40 + (b - 0x80), len := len }) := by
  simp [utf8Step, isCont, h1, h2]

/-- Reading the UTF-8 bytes of one scalar value gives that value. -/
theorem utf8Run_encodeScalar (c : Nat) (hc : isScalar c = true) (rest : List Nat) :
    utf8Run Utf8State.idle (utf8EncodeScalar c ++ rest) = c :: utf8Run Utf8State.idle rest := by
  simp only [isScalar, Bool.and_eq_true, decide_eq_true_eq, Bool.not_eq_true',
    Bool.and_eq_false_iff, decide_eq_false_iff_not] at hc
  obtain ⟨hmax, hsur⟩ := hc
  unfold utf8EncodeScalar
  split_ifs with h1 h2 h3
  · rw [List.singleton_append, utf8Run_cons, utf8Step_idle, utf8Lead_one c h1]
    rfl
  · have hv : utf8Valid 2 c = true := by simp [utf8Valid]; omega
    rw [List.cons_append, List.singleton_append, utf8Run_cons, utf8Step_idle,
      utf8Lead_two _ (by omega) (by omega), utf8Run_cons,
      utf8Step_last _ 2 _ c (by omega) (by omega) (by omega) hv]
    rfl
  · have hv : utf8Valid 3 c = true := by
      simp [utf8Valid]
      omega
    rw [List.cons_append, List.cons_append, List.singleton_append, utf8Run_cons, utf8Step_idle,
      utf8Lead_three _ (by omega) (by omega), utf8Run_cons,
      utf8Step_more 0 _ 3 _ (by omega) (by omega), utf8Run_cons,
      utf8Step_last _ 3 _ c (by omega) (by omega) (by omega) hv]
    rfl
  · have hv : utf8Valid 4 c = true := by
      simp [utf8Valid]
      omega
    rw [List.cons_append, List.cons_append, List.cons_append, List.singleton_append,
      utf8Run_cons, utf8Step_idle,
      utf8Lead_four _ (by omega) (by omega), utf8Run_cons,
      utf8Step_more 1 _ 4 _ (by omega) (by omega), utf8Run_cons,
      utf8Step_more 0 _ 4 _ (by omega) (by omega), utf8Run_cons,
      utf8Step_last _ 4 _ c (by omega) (by omega) (by omega) hv]
    rfl

/-- Reading the UTF-8 bytes of scalar values gives those values, then goes on. -/
theorem utf8Run_encode (cs : List Nat) (hcs : ∀ c ∈ cs, isScalar c = true) (rest : List Nat) :
    utf8Run Utf8State.idle (utf8Encode cs ++ rest) = cs ++ utf8Run Utf8State.idle rest := by
  induction cs with
  | nil => rfl
  | cons c cs ih =>
    have hc := hcs c (List.mem_cons_self c cs)
    have htl : ∀ d ∈ cs, isScalar d = true := fun d hd => hcs d (List.mem_cons_of_mem c hd)
    rw [utf8Encode, List.append_assoc, utf8Run_encodeScalar c hc, ih htl]
    rfl

/-- Decoding the UTF-8 form of a sequence of scalar values gives it back. -/
theorem utf8Decode_encode (cs : List Nat) (hcs : ∀ c ∈ cs, isScalar c = true) :
    utf8Decode (utf8Encode cs) = cs := by
  have h := utf8Run_encode cs hcs []
  rw [List.append_nil] at h
  unfold utf8Decode
  rw [h]
  simp [utf8Run, Utf8State.idle]

/-- The UTF-8 writer distributes over concatenation. -/
theorem utf8Encode_append (xs ys : List Nat) :
    utf8Encode (xs ++ ys) = utf8Encode xs ++ utf8Encode ys := by
  induction xs with
  | nil => rfl
  | cons x xs ih => simp [utf8Encode, ih]

/-- The UTF-16 writer distributes over concatenation. -/
theorem utf16Encode_append (xs ys : List Nat) :
    utf16Encode (xs ++ ys) = utf16Encode xs ++ utf16Encode ys := by
  induction xs with
  | nil => rfl
  | cons x xs ih => simp [utf16Encode, ih]

/-- The UTF-8 bytes of a non-zero code point contain no zero byte. -/
theorem utf8EncodeScalar_ne_zero (c : Nat) (hc : c ≠ 0) : ∀ b ∈ utf8EncodeScalar c, b ≠ 0 := by
  intro b hb
  unfold utf8EncodeScalar at hb
  split_ifs at hb <;> simp at hb <;> omega

/-- The UTF-8 bytes of non-zero code points contain no zero byte. -/
theorem utf8Encode_ne_zero (cs : List Nat) (hcs : ∀ c ∈ cs, c ≠ 0) :
    ∀ b ∈ utf8Encode cs, b ≠ 0 := by
  induction cs with
  | nil => intro b hb; simp [utf8Encode] at hb
  | cons c cs ih =>
    intro b hb
    rw [utf8Encode, List.mem_append] at hb
    rcases hb with hb | hb
    · exact utf8EncodeScalar_ne_zero c (hcs c (List.mem_cons_self c cs)) b hb
    · exact ih (fun d hd => hcs d (List.mem_cons_of_mem c hd)) b hb

/-- The UTF-16 units of a non-zero code point contain no zero unit. -/
theorem utf16EncodeScalar_ne_zero (c : Nat) (hc : c ≠ 0) : ∀ u ∈ utf16EncodeScalar c, u ≠ 0 := by
  intro u hu
  unfold utf16EncodeScalar at hu
  split_ifs at hu <;> simp at hu <;> omega

/-- The UTF-16 units of non-zero code points contain no zero unit. -/
theorem utf16Encode_ne_zero (cs : List Nat) (hcs : ∀ c ∈ cs, c ≠ 0) :
    ∀ u ∈ utf16Encode cs, u ≠ 0 := by
  induction cs with
  | nil => intro b hb; simp [utf16Encode] at hb
  | cons c cs ih =>
    intro b hb
    rw [utf16Encode, List.mem_append] at hb
    rcases hb with hb | hb
    · exact utf16EncodeScalar_ne_zero c (hcs c (List.mem_cons_self c cs)) b hb
    · exact ih (fun d hd => hcs d (List.mem_cons_of_mem c hd)) b hb

/-- A NUL-terminated string is read up to its terminator. -/
theorem cstr_append_zero (xs ys : List Nat) (hxs : ∀ x ∈ xs, x ≠ 0) :
    cstr (xs ++ 0 :: ys) = xs := by
  induction xs with
  | nil => simp [cstr]
  | cons x xs ih =>
    have hx : x ≠ 0 := hxs x (List.mem_cons_self x xs)
    have := ih (fun d hd => hxs d (List.mem_cons_of_mem x hd))
    unfold cstr at this ⊢
    rw [List.cons_append, List.takeWhile_cons_of_pos (by simpa using hx), this]

/-- The UTF-16 reader consumes its input one unit at a time. -/
theorem utf16Run_cons (pending : Option Nat) (u : Nat) (rest : List Nat) :
    utf16Run pending (u :: rest)
      = (utf16Step pending u).1 ++ utf16Run (utf16Step pending u).2 rest := by
  cases pending <;> rfl

/-- Reading well-formed UTF-16 and writing the code points back gives the same
units; a leading surrogate pending at the start is written back in front. -/
theorem utf16Encode_run (w : List Nat) :
    (wellFormedUtf16From false w = true → utf16Encode (utf16Run none w) = w) ∧
    (∀ h, isHighSurrogate h = true → wellFormedUtf16From true w = true →
      utf16Encode (utf16Run (some h) w) = h :: w) := by
  induction w with
  | nil =>
    constructor
    · intro _; rfl
    · intro h _ hw; simp [wellFormedUtf16From] at hw
  | cons u rest ih =>
    constructor
    · intro hw
      simp only [wellFormedUtf16From, Bool.and_eq_true, decide_eq_true_eq] at hw
      obtain ⟨hu, hw⟩ := hw
      rw [utf16Run_cons]
      by_cases hh : isHighSurrogate u = true
      · rw [if_pos hh] at hw
        simp only [utf16Step, hh, if_true, List.nil_append]
        exact ih.2 u hh hw
      · rw [if_neg hh] at hw
        simp only [Bool.and_eq_true, Bool.not_eq_true'] at hw
        obtain ⟨hl, hw⟩ := hw
        simp only [utf16Step, hh, hl, if_false, Bool.false_eq_true]
        simp [utf16Encode, utf16EncodeScalar, hu, ih.1 hw]
    · intro h hh hw
      simp only [wellFormedUtf16From, Bool.and_eq_true] at hw
      obtain ⟨hl, hw⟩ := hw
      rw [utf16Run_cons]
      simp only [utf16Step, hl, if_true]
      simp only [isHighSurrogate, isLowSurrogate, Bool.and_eq_true, decide_eq_true_eq] at hh hl
      have e1 : ¬ (0x10000 + (h - 0xD800) * 0x400 + (u - 0xDC00) < 0x10000) := by omega
      have e2 : 0xD800 + (0x10000 + (h - 0xD800) * 0x400 + (u - 0xDC00) - 0x10000) / 0x400 = h := by
        omega
      have e3 : 0xDC00 + (0x10000 + (h - 0xD800) * 0x400 + (u - 0xDC00) - 0x10000) % 0x400 = u := by
        omega
      simp [utf16Encode, utf16EncodeScalar, e1, e2, e3, ih.1 hw]

/-- The replacement character U+FFFD is a non-zero scalar value. -/
theorem isScalar_replacement : isScalar 0xFFFD = true ∧ 0xFFFD ≠ 0 := by
  simp [isScalar]

/-- Every code point read from 16-bit units is a scalar value, and is not
zero when no unit is. -/
theorem utf16Run_scalar (w : List Nat) (hw : ∀ u ∈ w, u ≠ 0 ∧ u < 0x10000) :
    ∀ pending : Option Nat, (∀ h, pending = some h → isHighSurrogate h = true) →
      ∀ c ∈ utf16Run pending w, isScalar c = true ∧ c ≠ 0 := by
  induction w with
  | nil =>
    intro pending _ c hc
    cases pending with
    | none => simp [utf16Run] at hc
    | some h =>
      simp [utf16Run] at hc
      subst hc
      exact isScalar_replacement
  | cons u rest ih =>
    intro pending hp c hc
    have hu := hw u (List.mem_cons_self u rest)
    have hrest : ∀ v ∈ rest, v ≠ 0 ∧ v < 0x10000 :=
      fun v hv => hw v (List.mem_cons_of_mem u hv)
    rw [utf16Run_cons, List.mem_append] at hc
    rcases hc with hc | hc
    · cases pending with
      | none =>
        simp only [utf16Step] at hc
        split_ifs at hc with h1 h2
        · simp at hc
        · simp at hc; subst hc; exact isScalar_replacement
        · simp at hc
          subst hc
          simp only [isHighSurrogate, isLowSurrogate, Bool.and_eq_true, decide_eq_true_eq,
            not_and, not_lt] at h1 h2
          refine ⟨?_, hu.1⟩
          simp only [isScalar, Bool.and_eq_true, decide_eq_true_eq, Bool.not_eq_true',
            Bool.and_eq_false_iff, decide_eq_false_iff_not]
          omega
      | some h =>
        have hh := hp h rfl
        simp only [utf16Step] at hc
        simp only [isHighSurrogate, Bool.and_eq_true, decide_eq_true_eq] at hh
        split_ifs at hc with h1 h2
        · simp only [List.mem_singleton] at hc
          rw [hc]
          simp only [isLowSurrogate, Bool.and_eq_true, decide_eq_true_eq] at h1
          refine ⟨?_, by omega⟩
          simp only [isScalar, Bool.and_eq_true, decide_eq_true_eq, Bool.not_eq_true',
            Bool.and_eq_false_iff, decide_eq_false_iff_not]
          omega
        · simp at hc; subst hc; exact isScalar_replacement
        · simp at hc
          simp only [isHighSurrogate, isLowSurrogate, Bool.and_eq_true, decide_eq_true_eq,
            not_and, not_lt] at h1 h2
          rcases hc with hc | hc
          · subst hc; exact isScalar_replacement
          · subst hc
            refine ⟨?_, hu.1⟩
            simp only [isScalar, Bool.and_eq_true, decide_eq_true_eq, Bool.not_eq_true',
              Bool.and_eq_false_iff, decide_eq_false_iff_not]
            omega
    · refine ih hrest _ ?_ c hc
      intro h hh
      cases pending with
      | none =>
        simp only [utf16Step] at hh
        split_ifs at hh with h1 h2
        simp at hh; subst hh; exact h1
      | some h0 =>
        simp only [utf16Step] at hh
        split_ifs at hh with h1 h2
        simp at hh; subst hh; exact h2

/-- Well-formed UTF-16 consists of 16-bit units. -/
theorem wellFormedUtf16From_lt (w : List Nat) :
    ∀ pending, wellFormedUtf16From pending w = true → ∀ u ∈ w, u < 0x10000 := by
  induction w with
  | nil => intro _ _ u hu; simp at hu
  | cons v rest ih =>
    intro pending hw u hu
    cases pending with
    | false =>
      simp only [wellFormedUtf16From, Bool.and_eq_true, decide_eq_true_eq] at hw
      rcases List.mem_cons.1 hu with rfl | hu
      · exact hw.1
      · split_ifs at hw with h1
        · exact ih true hw.2 u hu
        · simp only [Bool.and_eq_true] at hw
          exact ih false hw.2.2 u hu
    | true =>
      simp only [wellFormedUtf16From, Bool.and_eq_true] at hw
      rcases List.mem_cons.1 hu with rfl | hu
      · have := hw.1
        simp only [isLowSurrogate, Bool.and_eq_true, decide_eq_true_eq] at this
        omega
      · exact ih false hw.2 u hu

/-- A unit that is no surrogate is read as itself. -/
theorem utf16Run_single (c : Nat) (rest : List Nat) (n1 : isHighSurrogate c = false)
    (n2 : isLowSurrogate c = false) : utf16Run none (c :: rest) = c :: utf16Run none rest := by
  rw [utf16Run_cons]
  simp [utf16Step, n1, n2]

/-- A leading surrogate followed by a trailing one is read as one code point. -/
theorem utf16Run_pair (h u c : Nat) (rest : List Nat) (hh : isHighSurrogate h = true)
    (hl : isLowSurrogate u = true) (e : 0x10000 + (h - 0xD800) * 0x400 + (u - 0xDC00) = c) :
    utf16Run none (h :: u :: rest) = c :: utf16Run none rest := by
  rw [utf16Run_cons, utf16Run_cons]
  simp only [utf16Step, hh, hl, if_true, e, List.nil_append, List.singleton_append]

/-- Reading the UTF-16 units of one scalar value gives that value. -/
theorem utf16Run_encodeScalar (c : Nat) (hc : isScalar c = true) (rest : List Nat) :
    utf16Run none (utf16EncodeScalar c ++ rest) = c :: utf16Run none rest := by
  simp only [isScalar, Bool.and_eq_true, decide_eq_true_eq, Bool.not_eq_true',
    Bool.and_eq_false_iff, decide_eq_false_iff_not] at hc
  obtain ⟨hmax, hsur⟩ := hc
  unfold utf16EncodeScalar
  split_ifs with h1
  · have n1 : isHighSurrogate c = false := by
      simp only [isHighSurrogate, Bool.and_eq_false_iff, decide_eq_false_iff_not]; omega
    have n2 : isLowSurrogate c = false := by
      simp only [isLowSurrogate, Bool.and_eq_false_iff, decide_eq_false_iff_not]; omega
    exact utf16Run_single c rest n1 n2
  · have n1 : isHighSurrogate (0xD800 + (c - 0x10000) / 0x400) = true := by
      simp only [isHighSurrogate, Bool.and_eq_true, decide_eq_true_eq]; omega
    have n2 : isLowSurrogate (0xDC00 + (c - 0x10000) % 0x400) = true := by
      simp only [isLowSurrogate, Bool.and_eq_true, decide_eq_true_eq]; omega
    have e : 0x10000 + (0xD800 + (c - 0x10000) / 0x400 - 0xD800) * 0x400
        + (0xDC00 + (c - 0x10000) % 0x400 - 0xDC00) = c := by
      rw [Nat.add_sub_cancel_left, Nat.add_sub_cancel_left]
      have := Nat.div_add_mod (c - 0x10000) 0x400
      omega
    exact utf16Run_pair _ _ c rest n1 n2 e

/-- Reading the UTF-16 form of a sequence of scalar values gives it back. -/
theorem utf16Decode_encode (cs : List Nat) (hcs : ∀ c ∈ cs, isScalar c = true) :
    utf16Decode (utf16Encode cs) = cs := by
  unfold utf16Decode
  induction cs with
  | nil => rfl
  | cons c cs ih =>
    rw [utf16Encode, utf16Run_encodeScalar c (hcs c (List.mem_cons_self c cs)),
      ih (fun d hd => hcs d (List.mem_cons_of_mem c hd))]

/-- The size query followed by the fill leaves exactly the converted text,
terminator included, in the `std::string`. -/
theorem ConvertToUtf8_eq (text : List Nat) :
    ConvertToUtf8 text = utf8Encode (utf16Decode (cstr text)) ++ [0] := by
  simp [ConvertToUtf8, WideCharToMultiByte]

/-- The size query followed by the fill leaves exactly the converted text,
terminator included, in the new array. -/
theorem ConvertToLPWSTR_eq (str : List Nat) :
    ConvertToLPWSTR str = utf16Encode (utf8Decode (cstr (str ++ [0]))) ++ [0] := by
  simp [ConvertToLPWSTR, MultiByteToWideChar]

/-- The characters of "Processed: " are scalar values. -/
theorem ascii_tag_scalar : ∀ c ∈ ascii "Processed: ", isScalar c = true := by
  decide

/-- The UTF-8 form of "Processed: " is the ASCII literal itself. -/
theorem utf8Encode_tag : utf8Encode (ascii "Processed: ") = ascii "Processed: " := by
  decide

/-- The UTF-16 form of "Processed: " has the ASCII values as units. -/
theorem utf16Encode_tag : utf16Encode (ascii "Processed: ") = ascii "Processed: " := by
  decide

/-- The literal "Processed: " contains no NUL. -/
theorem ascii_tag_ne_zero : ∀ c ∈ ascii "Processed: ", c ≠ 0 := by
  decide

/-- The text the boundary hands back for the internal string `pre ++ utf8 ++ [0]`. -/
theorem ConvertToLPWSTR_utf8 (cs : List Nat) (hcs : ∀ c ∈ cs, isScalar c = true ∧ c ≠ 0)
    (tail : List Nat) :
    ConvertToLPWSTR (utf8Encode cs ++ 0 :: tail) = utf16Encode cs ++ [0] := by
  rw [ConvertToLPWSTR_eq, List.append_assoc, List.cons_append,
    cstr_append_zero _ _ (utf8Encode_ne_zero cs (fun c hc => (hcs c hc).2)),
    utf8Decode_encode cs (fun c hc => (hcs c hc).1)]

/-! ## The boundary: `ConvertToLPWSTR`, the decode step and the exported `ProcessText` -/

/-- C2, at the failing input: the one-byte string "A" is encoded to the host
buffer `[0x41, 0]`, and the decode step turns that buffer into the two-byte
string `[0x41, 0]`: one byte longer than "A", with a trailing NUL. -/
theorem C2_round_trip_at_A :
    ConvertToLPWSTR [0x41] = [0x41, 0] ∧
    ConvertToUtf8 (ConvertToLPWSTR [0x41]) = [0x41, 0] ∧
    ConvertToUtf8 (ConvertToLPWSTR [0x41]) ≠ [0x41] := by
  decide

/-- C2, what the code does: for every well-formed UTF-8 string without NUL
(the UTF-8 form of a sequence `cs` of non-zero scalar values), the decode step
applied to the encoded host buffer yields the string followed by one NUL byte:
one byte longer than the string, hence never equal to it. -/
theorem C2_decode_appends_terminator (cs : List Nat)
    (hcs : ∀ c ∈ cs, Win32.isScalar c = true ∧ c ≠ 0) :
    ConvertToLPWSTR (Win32.utf8Encode cs) = Win32.utf16Encode cs ++ [0] ∧
    ConvertToUtf8 (ConvertToLPWSTR (Win32.utf8Encode cs)) = Win32.utf8Encode cs ++ [0] ∧
    (ConvertToUtf8 (ConvertToLPWSTR (Win32.utf8Encode cs))).length
      = (Win32.utf8Encode cs).length + 1 ∧
    ConvertToUtf8 (ConvertToLPWSTR (Win32.utf8Encode cs)) ≠ Win32.utf8Encode cs := by
  have henc : ConvertToLPWSTR (Win32.utf8Encode cs) = Win32.utf16Encode cs ++ [0] := by
    rw [ConvertToLPWSTR_eq,
      cstr_append_zero _ [] (utf8Encode_ne_zero cs (fun c hc => (hcs c hc).2)),
      utf8Decode_encode cs (fun c hc => (hcs c hc).1)]
  have hdec : ConvertToUtf8 (ConvertToLPWSTR (Win32.utf8Encode cs))
      = Win32.utf8Encode cs ++ [0] := by
    rw [henc, ConvertToUtf8_eq,
      cstr_append_zero _ [] (utf16Encode_ne_zero cs (fun c hc => (hcs c hc).2)),
      utf16Decode_encode cs (fun c hc => (hcs c hc).1)]
  refine ⟨henc, hdec, ?_, ?_⟩
  · rw [hdec]; simp
  · rw [hdec]
    intro hEq
    have hlen := congrArg List.length hEq
    simp at hlen

/-- C2, what the code does, at the string "Aé😀" (code points U+0041, U+00E9,
U+1F600). -/
theorem C2_decode_appends_terminator_witness :
    ConvertToLPWSTR (Win32.utf8Encode [0x41, 0xE9, 0x1F600])
      = Win32.utf16Encode [0x41, 0xE9, 0x1F600] ++ [0] ∧
    ConvertToUtf8 (ConvertToLPWSTR (Win32.utf8Encode [0x41, 0xE9, 0x1F600]))
      = Win32.utf8Encode [0x41, 0xE9, 0x1F600] ++ [0] ∧
    (ConvertToUtf8 (ConvertToLPWSTR (Win32.utf8Encode [0x41, 0xE9, 0x1F600]))).length
      = (Win32.utf8Encode [0x41, 0xE9, 0x1F600]).length + 1 ∧
    ConvertToUtf8 (ConvertToLPWSTR (Win32.utf8Encode [0x41, 0xE9, 0x1F600]))
      ≠ Win32.utf8Encode [0x41, 0xE9, 0x1F600] :=
  C2_decode_appends_terminator [0x41, 0xE9, 0x1F600] (by simp [Win32.isScalar])

/-- C8, counterexample: for a live handle and the host string made of the one
unpaired surrogate 0xD800, the returned text is not that string but U+FFFD,
on an engine that is not initialized as on one that is. -/
theorem C8_unpaired_surrogate_replaced :
    ProcessText ⟨some (1000, ⟨⟨false⟩⟩)⟩ 1000 [0xD800, 0]
      = some { ret := some [0xFFFD, 0], global := ⟨some (1000, ⟨⟨false⟩⟩)⟩,
               out := [Write.cerr (ascii "AI Processor not initialized!" ++ ascii "\n")] } ∧
    ProcessText ⟨some (1000, ⟨⟨true⟩⟩)⟩ 1000 [0xD800, 0]
      = some { ret := some (ascii "Processed: " ++ [0xFFFD, 0]),
               global := ⟨some (1000, ⟨⟨true⟩⟩)⟩, out := [] } := by
  decide

/-- C8, amended: for every non-null live handle and every NUL-terminated host
string `w` that has no embedded NUL and is well-formed UTF-16, the exported
`ProcessText` returns exactly "Processed: " followed by `w` and the terminator
when the engine is initialized, and exactly `w` and the terminator when it is
not (then with the line "AI Processor not initialized!" on `std::cerr`); the
state is as before.  The internal string the decode step builds ends with the
copied terminator, which the returned text does not contain. -/
theorem C8_process_text_end_to_end (p : Nat) (hp : p ≠ 0) (obj : AIProcessor) (w : List Nat)
    (hw0 : ∀ u ∈ w, u ≠ 0) (hwf : Win32.wellFormedUtf16 w = true) :
    ProcessText ⟨some (p, obj)⟩ p (w ++ [0])
      = some { ret := some (if obj.m_pImpl.m_initialized then ascii "Processed: " ++ w ++ [0]
                            else w ++ [0]),
               global := ⟨some (p, obj)⟩,
               out := if obj.m_pImpl.m_initialized then []
                      else [Write.cerr (ascii "AI Processor not initialized!" ++ ascii "\n")] } ∧
    ConvertToUtf8 (w ++ [0]) = Win32.utf8Encode (Win32.utf16Decode w) ++ [0] := by
  have hrange : ∀ u ∈ w, u ≠ 0 ∧ u < 0x10000 :=
    fun u hu => ⟨hw0 u hu, wellFormedUtf16From_lt w false hwf u hu⟩
  have hsc : ∀ c ∈ Win32.utf16Decode w, Win32.isScalar c = true ∧ c ≠ 0 :=
    utf16Run_scalar w hrange none (by intro h hh; cases hh)
  have hback : Win32.utf16Encode (Win32.utf16Decode w) = w := (utf16Encode_run w).1 hwf
  have hstr : ConvertToUtf8 (w ++ [0]) = Win32.utf8Encode (Win32.utf16Decode w) ++ [0] := by
    rw [ConvertToUtf8_eq, cstr_append_zero w [] hw0]
  refine ⟨?_, hstr⟩
  obtain ⟨⟨flag⟩⟩ := obj
  cases flag with
  | false =>
    have hret : ConvertToLPWSTR (Win32.utf8Encode (Win32.utf16Decode w) ++ [0]) = w ++ [0] := by
      rw [ConvertToLPWSTR_utf8 _ hsc [], hback]
    simp [ProcessText, hp, Global.deref, AIProcessor.ProcessText, AIProcessor.Impl.ProcessText,
      hstr, hret]
  | true =>
    have hsc2 : ∀ c ∈ ascii "Processed: " ++ Win32.utf16Decode w,
        Win32.isScalar c = true ∧ c ≠ 0 := by
      intro c hc
      rcases List.mem_append.1 hc with hc | hc
      · exact ⟨ascii_tag_scalar c hc, ascii_tag_ne_zero c hc⟩
      · exact hsc c hc
    have hret : ConvertToLPWSTR
        (ascii "Processed: " ++ (Win32.utf8Encode (Win32.utf16Decode w) ++ [0]))
        = ascii "Processed: " ++ w ++ [0] := by
      have h := ConvertToLPWSTR_utf8 _ hsc2 []
      rw [utf8Encode_append, utf16Encode_append, utf8Encode_tag, utf16Encode_tag, hback,
        List.append_assoc] at h
      exact h
    simp [ProcessText, hp, Global.deref, AIProcessor.ProcessText, AIProcessor.Impl.ProcessText,
      hstr, hret]

/-- C8, amended, at an initialized engine behind the handle 1000 and the host
string "A😀" (units 0x0041, 0xD83D, 0xDE00). -/
theorem C8_process_text_end_to_end_witness :
    ProcessText ⟨some (1000, ⟨⟨true⟩⟩)⟩ 1000 ([0x41, 0xD83D, 0xDE00] ++ [0])
      = some { ret := some (if (⟨⟨true⟩⟩ : AIProcessor).m_pImpl.m_initialized
                            then ascii "Processed: " ++ [0x41, 0xD83D, 0xDE00] ++ [0]
                            else [0x41, 0xD83D, 0xDE00] ++ [0]),
               global := ⟨some (1000, ⟨⟨true⟩⟩)⟩,
               out := if (⟨⟨true⟩⟩ : AIProcessor).m_pImpl.m_initialized then []
                      else [Write.cerr (ascii "AI Processor not initialized!" ++ ascii "\n")] } ∧
    ConvertToUtf8 ([0x41, 0xD83D, 0xDE00] ++ [0])
      = Win32.utf8Encode (Win32.utf16Decode [0x41, 0xD83D, 0xDE00]) ++ [0] :=
  C8_process_text_end_to_end 1000 (by decide) ⟨⟨true⟩⟩ [0x41, 0xD83D, 0xDE00]
    (by decide) (by decide)
